import Mathlib

/-!
Shallow embedding of `photo_date_updater.py` and `inspect_metadata.py`
(repository `quarup/photo-date-updater`).

The Python scripts' pure logic is translated to executable Lean functions.
External effects are modelled as explicit inputs:
* the exifread library result (`exifread.process_file`) becomes an
  `Option Tags` argument (`none` = the call raised an exception);
* `subprocess.run` becomes a function `List String → Except String Int`
  (`.error` = invocation raised, `.ok rc` = process exit status `rc`);
* the filesystem becomes an `FS` record of the path predicates and the
  `glob` / `rglob` enumerations the scripts use.
-/

namespace PhotoDateUpdater

/-! ## Python `datetime` and `strptime` model

`datetime.strptime(s, fmt)` for the three formats used by the scripts
(`%Y:%m:%d %H:%M:%S` and the `-` / `/` separated variants).  CPython's
`_strptime` compiles the format to a regex; the per-directive patterns are
  %Y : four digits
  %m : 1[0-2] | 0[1-9] | [1-9]
  %d : 3[01] | [12]\d | 0[1-9] | [1-9]
  %H : 2[0-3] | [0-1]\d | \d
  %M : [0-5]\d | \d
  %S : 6[0-1] | [0-5]\d | \d
with full-string match and regex backtracking, after which the
`datetime(...)` constructor validates the calendar fields (raising
`ValueError`, which the caller treats as a failed parse).  We model the
alternation-with-backtracking by having each field matcher return its
candidate list in alternation order and trying the whole continuation on
each candidate. -/

structure PyDateTime where
  year : Nat
  month : Nat
  day : Nat
  hour : Nat
  minute : Nat
  second : Nat
deriving DecidableEq, Repr, Inhabited

def dval (c : Char) : Nat := c.toNat - '0'.toNat

/-- Candidates (in regex alternation order) for a two-digit field whose
first digit satisfies `p` and second digit satisfies `q`. -/
def matchTwo (p q : Char → Bool) : List Char → List (Nat × List Char)
  | a :: b :: rest =>
    if p a && q b then [(dval a * 10 + dval b, rest)] else []
  | _ => []

/-- Candidates for a one-digit field whose digit satisfies `p`. -/
def matchOne (p : Char → Bool) : List Char → List (Nat × List Char)
  | a :: rest => if p a then [(dval a, rest)] else []
  | _ => []

def isDig (c : Char) : Bool := '0' ≤ c && c ≤ '9'

def digBetween (lo hi : Char) (c : Char) : Bool := lo ≤ c && c ≤ hi

/-- `%Y`: exactly four digits. -/
def matchYear : List Char → List (Nat × List Char)
  | a :: b :: c :: d :: rest =>
    if isDig a && isDig b && isDig c && isDig d then
      [(((dval a * 10 + dval b) * 10 + dval c) * 10 + dval d, rest)]
    else []
  | _ => []

/-- `%m`: `1[0-2] | 0[1-9] | [1-9]`. -/
def matchMonth (s : List Char) : List (Nat × List Char) :=
  matchTwo (· = '1') (digBetween '0' '2') s ++
  matchTwo (· = '0') (digBetween '1' '9') s ++
  matchOne (digBetween '1' '9') s

/-- `%d`: `3[01] | [12]\d | 0[1-9] | [1-9]`. -/
def matchDay (s : List Char) : List (Nat × List Char) :=
  matchTwo (· = '3') (digBetween '0' '1') s ++
  matchTwo (digBetween '1' '2') isDig s ++
  matchTwo (· = '0') (digBetween '1' '9') s ++
  matchOne (digBetween '1' '9') s

/-- `%H`: `2[0-3] | [0-1]\d | \d`. -/
def matchHour (s : List Char) : List (Nat × List Char) :=
  matchTwo (· = '2') (digBetween '0' '3') s ++
  matchTwo (digBetween '0' '1') isDig s ++
  matchOne isDig s

/-- `%M`: `[0-5]\d | \d`. -/
def matchMinute (s : List Char) : List (Nat × List Char) :=
  matchTwo (digBetween '0' '5') isDig s ++ matchOne isDig s

/-- `%S`: `6[0-1] | [0-5]\d | \d` (leap seconds match the regex but are
rejected by the `datetime` constructor). -/
def matchSecond (s : List Char) : List (Nat × List Char) :=
  matchTwo (· = '6') (digBetween '0' '1') s ++
  matchTwo (digBetween '0' '5') isDig s ++
  matchOne isDig s

def firstSome (f : α → Option β) : List α → Option β
  | [] => none
  | a :: rest =>
    match f a with
    | some b => some b
    | none => firstSome f rest

def expectChar (c : Char) : List Char → Option (List Char)
  | a :: rest => if a = c then some rest else none
  | [] => none

def isLeapYear (y : Nat) : Bool := (y % 4 = 0 && y % 100 ≠ 0) || y % 400 = 0

def daysInMonth (y m : Nat) : Nat :=
  if m = 2 then (if isLeapYear y then 29 else 28)
  else if m = 4 || m = 6 || m = 9 || m = 11 then 30
  else 31

/-- The `datetime(year, month, day, hour, minute, second)` constructor:
`some` iff all fields are in range (else CPython raises `ValueError`). -/
def mkPyDateTime (y mo d h mi s : Nat) : Option PyDateTime :=
  if 1 ≤ y && y ≤ 9999 && 1 ≤ mo && mo ≤ 12 && 1 ≤ d && d ≤ daysInMonth y mo
      && h ≤ 23 && mi ≤ 59 && s ≤ 59 then
    some ⟨y, mo, d, h, mi, s⟩
  else none

/-- Full-string match of `%Y<sep>%m<sep>%d %H:%M:%S` with backtracking,
then `datetime` construction. -/
def parseDateFields (sep : Char) (s : List Char) : Option PyDateTime :=
  firstSome (fun ys =>
    (expectChar sep ys.2).bind (fun s2 =>
      firstSome (fun mos =>
        (expectChar sep mos.2).bind (fun s4 =>
          firstSome (fun ds =>
            (expectChar ' ' ds.2).bind (fun s6 =>
              firstSome (fun hs =>
                (expectChar ':' hs.2).bind (fun s8 =>
                  firstSome (fun mis =>
                    (expectChar ':' mis.2).bind (fun s10 =>
                      firstSome (fun ss =>
                        if ss.2.isEmpty then
                          mkPyDateTime ys.1 mos.1 ds.1 hs.1 mis.1 ss.1
                        else none)
                        (matchSecond s10)))
                    (matchMinute s8)))
                (matchHour s6)))
            (matchDay s4)))
        (matchMonth s2)))
    (matchYear s)

/-- `datetime.strptime(s, '%Y:%m:%d %H:%M:%S')` as an `Option`. -/
def strptimeColon (s : String) : Option PyDateTime := parseDateFields ':' s.toList

/-- `datetime.strptime(s, '%Y-%m-%d %H:%M:%S')` as an `Option`. -/
def strptimeDash (s : String) : Option PyDateTime := parseDateFields '-' s.toList

/-- `datetime.strptime(s, '%Y/%m/%d %H:%M:%S')` as an `Option`. -/
def strptimeSlash (s : String) : Option PyDateTime := parseDateFields '/' s.toList

/-! ## `pathlib.Path` suffix model

`Path(p).suffix` on POSIX: take the final path component (`name`, with
trailing slashes stripped), find the last dot; if that dot is neither the
first nor the last character of the name the suffix is the substring from
the dot, else it is empty. -/

/-- Chars of the final path component: strip trailing `/`, keep what
follows the last remaining `/`. -/
def nameChars (p : List Char) : List Char :=
  ((p.reverse.dropWhile (· = '/')).takeWhile (· ≠ '/')).reverse

/-- `Path(p).name`. -/
def pathName (p : String) : String := String.mk (nameChars p.toList)

/-- `Path(p).suffix`. -/
def pathSuffix (p : String) : String :=
  let n := nameChars p.toList
  let after := n.reverse.takeWhile (· ≠ '.')
  if after.length = n.length then ""
  else
    let i := n.length - 1 - after.length
    if 0 < i && i + 1 < n.length then String.mk (n.drop i) else ""

/-- Python `str.lower()`, character by character.  (The strings the
scripts lower-case — file extensions and tag names — are ASCII, where
`Char.toLower` agrees with Python's lowering.) -/
def toLowerStr (s : String) : String :=
  String.mk (s.toList.map Char.toLower)

/-! ## `photo_date_updater.py` constants -/

/-- `SUPPORTED_FORMATS` (a Python set; modelled as a list, membership
order-independent). -/
def SUPPORTED_FORMATS : List String :=
  [".jpg", ".jpeg", ".tiff", ".tif", ".png", ".heic", ".heif",
   ".cr2", ".nef", ".arw", ".mp4", ".mov", ".avi", ".mkv"]

/-- `EXIF_DATE_TAGS`: EXIF date tags to check in order of preference. -/
def EXIF_DATE_TAGS : List String :=
  ["EXIF DateTimeOriginal", "EXIF DateTime", "Image DateTime",
   "EXIF SubSecTimeOriginal", "EXIF SubSecTime"]

/-- `VIDEO_DATE_TAGS`: video metadata tags to check. -/
def VIDEO_DATE_TAGS : List String :=
  ["QuickTime CreateDate", "QuickTime DateTimeOriginal",
   "QuickTime DateTime", "QuickTime CreationDate"]

/-- The video-extension set tested in `get_exif_date`
(`{'.mp4', '.mov', '.avi', '.mkv'}`). -/
def VIDEO_EXTS : List String := [".mp4", ".mov", ".avi", ".mkv"]

/-- `is_supported_format`: `Path(file_path).suffix.lower() in SUPPORTED_FORMATS`. -/
def is_supported_format (file_path : String) : Bool :=
  SUPPORTED_FORMATS.contains (toLowerStr (pathSuffix file_path))

/-! ## `get_exif_date`

The exifread result is an input: `none` models `open` / `process_file`
raising (caught by the outer `except`, which returns `None`); `some tags`
is the tag dictionary, as an association list of stringified
name/value pairs. -/

/-- A decoded tag dictionary: tag name ↦ stringified value. -/
abbrev Tags := List (String × String)

/-- `tag in tags` / `str(tags[tag])` combined. -/
def lookupTag (tags : Tags) (name : String) : Option String :=
  tags.lookup name

/-- The video branch's format fallback: try
`'%Y:%m:%d %H:%M:%S'`, `'%Y-%m-%d %H:%M:%S'`, `'%Y/%m/%d %H:%M:%S'`
in order; first successful parse wins. -/
def tryVideoFormats (s : String) : Option PyDateTime :=
  match strptimeColon s with
  | some d => some d
  | none =>
    match strptimeDash s with
    | some d => some d
    | none => strptimeSlash s

/-- One `for tag in tagList:` scan: the first tag that is present and
whose value parses wins; a present-but-unparsable tag is skipped (the
script logs a warning and continues). -/
def scanTags (parse : String → Option PyDateTime) (tagList : List String)
    (tags : Tags) : Option PyDateTime :=
  match tagList with
  | [] => none
  | t :: rest =>
    match lookupTag tags t with
    | none => scanTags parse rest tags
    | some v =>
      match parse v with
      | some d => some d
      | none => scanTags parse rest tags

/-- `get_exif_date(file_path)` with the exifread call's outcome passed in.
Video extensions scan `VIDEO_DATE_TAGS` (three formats) first and fall
through to the `EXIF_DATE_TAGS` scan (single `%Y:%m:%d %H:%M:%S` format);
any exception from decoding yields `None`. -/
def get_exif_date (file_path : String) (tagsResult : Option Tags) :
    Option PyDateTime :=
  match tagsResult with
  | none => none
  | some tags =>
    let file_ext := toLowerStr (pathSuffix file_path)
    let videoResult :=
      if VIDEO_EXTS.contains file_ext then
        scanTags tryVideoFormats VIDEO_DATE_TAGS tags
      else none
    match videoResult with
    | some d => some d
    | none => scanTags strptimeColon EXIF_DATE_TAGS tags

/-! ## `update_creation_date`

`subprocess.run` is an input `run : List String → Except String Int`:
`.ok rc` is a completed process with exit status `rc`, `.error msg` is an
exception raised by the invocation itself (e.g. `FileNotFoundError` when
`SetFile` is absent).  The embedding returns the script's boolean result
together with the list of commands it invoked. -/

/-- Zero-padded to (at least) two digits, as `%m` / `%d` / `%H` / `%M` / `%S`. -/
def pad2 (n : Nat) : String := if n < 10 then "0" ++ toString n else toString n

/-- Zero-padded to (at least) four digits, as `%Y`. -/
def pad4 (n : Nat) : String :=
  if n < 10 then "000" ++ toString n
  else if n < 100 then "00" ++ toString n
  else if n < 1000 then "0" ++ toString n
  else toString n

/-- `date.strftime('%m/%d/%Y %H:%M:%S')`. -/
def strftimeSetFile (d : PyDateTime) : String :=
  pad2 d.month ++ "/" ++ pad2 d.day ++ "/" ++ pad4 d.year ++ " " ++
  pad2 d.hour ++ ":" ++ pad2 d.minute ++ ":" ++ pad2 d.second

/-- `update_creation_date(file_path, date)`: build
`['SetFile', '-d', date_str, file_path]`, run it, return `True` iff the
exit status is `0`; any exception yields `False`.  Second component: the
commands passed to `subprocess.run`. -/
def update_creation_date (run : List String → Except String Int)
    (file_path : String) (date : PyDateTime) : Bool × List (List String) :=
  let cmd := ["SetFile", "-d", strftimeSetFile date, file_path]
  match run cmd with
  | Except.ok rc => (rc == 0, [cmd])
  | Except.error _ => (false, [cmd])

/-! ## Filesystem model and `process_directory`

`FS` packages the filesystem queries the walkers make.  `glob` models
`directory.glob('*')` (immediate children, in listing order) and `rglob`
models `directory.rglob('*')` (recursive enumeration). -/

structure FS where
  pathExists : String → Bool
  isDir : String → Bool
  isFile : String → Bool
  glob : String → List String
  rglob : String → List String

/-- Running tallies and invoked commands of the `process_directory` loop. -/
structure ProcStats where
  updated : Nat
  skipped : Nat
  errored : Nat
  invoked : List (List String)
deriving DecidableEq, Repr

/-- Result of `process_directory`: whether it returned before the
processing loop, the supported files it enumerated, the final tallies and
every command invoked. -/
structure ProcResult where
  earlyReturn : Bool
  files : List String
  updated : Nat
  skipped : Nat
  errored : Nat
  invoked : List (List String)
deriving DecidableEq, Repr

/-- One iteration of the `for file_path in image_files:` loop. -/
def processFile (dryRun : Bool) (meta : String → Option Tags)
    (run : List String → Except String Int) (st : ProcStats)
    (file_path : String) : ProcStats :=
  match get_exif_date file_path (meta file_path) with
  | none => { st with skipped := st.skipped + 1 }
  | some exifDate =>
    if dryRun then { st with updated := st.updated + 1 }
    else
      let r := update_creation_date run file_path exifDate
      if r.1 then
        { st with updated := st.updated + 1, invoked := st.invoked ++ r.2 }
      else
        { st with errored := st.errored + 1, invoked := st.invoked ++ r.2 }

/-- `process_directory(directory_path, dry_run)`.  `meta` gives each
file's exifread outcome, `run` the subprocess behavior.  Validation
failures and the no-supported-files case return early with zero tallies
(the script `return`s before its counter loop). -/
def process_directory (fs : FS) (meta : String → Option Tags)
    (run : List String → Except String Int) (directory_path : String)
    (dry_run : Bool) : ProcResult :=
  if !fs.pathExists directory_path then ⟨true, [], 0, 0, 0, []⟩
  else if !fs.isDir directory_path then ⟨true, [], 0, 0, 0, []⟩
  else
    let image_files := (fs.rglob directory_path).filter
      (fun p => fs.isFile p && is_supported_format p)
    if image_files.isEmpty then ⟨true, [], 0, 0, 0, []⟩
    else
      let st := image_files.foldl (processFile dry_run meta run) ⟨0, 0, 0, []⟩
      ⟨false, image_files, st.updated, st.skipped, st.errored, st.invoked⟩

/-! ## `inspect_metadata.py`

`is_supported_format` and `SUPPORTED_FORMATS` there are verbatim copies
of the updater's, so the embeddings above are shared.  -/

/-- `needle in hay` on strings (Python substring containment). -/
def hasSubAux (needle : List Char) : List Char → Bool
  | [] => needle.isEmpty
  | c :: rest => needle.isPrefixOf (c :: rest) || hasSubAux needle rest

/-- `needle in hay` for Python strings. -/
def strHasSub (needle hay : String) : Bool :=
  hasSubAux needle.toList hay.toList

/-- Substrings whose presence in a (lower-cased) tag name marks it as a
date tag. -/
def DATE_WORDS : List String := ["date", "time", "create", "original"]

/-- Camera-related substrings. -/
def CAMERA_WORDS : List String :=
  ["make", "model", "lens", "focal", "aperture", "iso", "exposure"]

/-- Video/audio-related substrings. -/
def VIDEO_WORDS : List String :=
  ["quicktime", "video", "audio", "codec", "bitrate", "frame"]

/-- `any(word in tag_str.lower() for word in words)`. -/
def anyWordIn (words : List String) (tag : String) : Bool :=
  words.any (fun w => strHasSub w (toLowerStr tag))

/-- Python string `<`: lexicographic comparison by code point. -/
def charListLt : List Char → List Char → Bool
  | _, [] => false
  | [], _ :: _ => true
  | a :: as, b :: bs =>
    if a.toNat < b.toNat then true
    else if b.toNat < a.toNat then false
    else charListLt as bs

/-- Python `a < b` on strings. -/
def strLtb (a b : String) : Bool := charListLt a.toList b.toList

/-- Python `sorted` key order on `(tag, value)` pairs: lexicographic
tuple comparison over string comparison. -/
def pairLe (a b : String × String) : Bool :=
  strLtb a.1 b.1 || (a.1 == b.1 && (strLtb a.2 b.2 || a.2 == b.2))

/-- `sorted(pairs)`.  Python's sort is modelled by insertion sort: the
comparison is a linear order on pairs, so every correct sort produces the
same list. -/
def sortPairs (l : List (String × String)) : List (String × String) :=
  List.insertionSort (fun a b => pairLe a b = true) l

/-- The dictionary returned by `inspect_file_metadata`. -/
structure MetadataSummary where
  date_tags : List (String × String)
  camera_tags : List (String × String)
  video_tags : List (String × String)
  other_tags : List (String × String)
  total_tags : Nat
deriving DecidableEq, Repr

/-- One iteration of the categorization loop: append the pair to the
first matching category (date, else camera, else video, else other). -/
def categorizeStep
    (acc : Tags × Tags × Tags × Tags) (tv : String × String) :
    Tags × Tags × Tags × Tags :=
  if anyWordIn DATE_WORDS tv.1 then (acc.1 ++ [tv], acc.2.1, acc.2.2.1, acc.2.2.2)
  else if anyWordIn CAMERA_WORDS tv.1 then (acc.1, acc.2.1 ++ [tv], acc.2.2.1, acc.2.2.2)
  else if anyWordIn VIDEO_WORDS tv.1 then (acc.1, acc.2.1, acc.2.2.1 ++ [tv], acc.2.2.2)
  else (acc.1, acc.2.1, acc.2.2.1, acc.2.2.2 ++ [tv])

/-- `inspect_file_metadata(file_path)` with the exifread outcome passed
in (`none` = exception, answered with `None`; an empty dictionary is
falsy and also answers `None`). -/
def inspect_file_metadata (tagsResult : Option Tags) : Option MetadataSummary :=
  match tagsResult with
  | none => none
  | some tags =>
    if tags.isEmpty then none
    else
      let cat := tags.foldl categorizeStep ([], [], [], [])
      some { date_tags := sortPairs cat.1
             camera_tags := sortPairs cat.2.1
             video_tags := sortPairs cat.2.2.1
             other_tags := sortPairs cat.2.2.2
             total_tags := tags.length }

/-- Result of `inspect_directory`: whether it returned before inspecting,
the supported files it enumerated, and each file's summary. -/
structure InspectResult where
  earlyReturn : Bool
  files : List String
  reports : List (String × Option MetadataSummary)
deriving Repr

/-- `inspect_directory(directory_path, recursive)`: validate the path,
enumerate with `rglob('*')` when `recursive` else `glob('*')`, filter to
supported regular files, and inspect each. -/
def inspect_directory (fs : FS) (meta : String → Option Tags)
    (directory_path : String) (recursive : Bool) : InspectResult :=
  if !fs.pathExists directory_path then ⟨true, [], []⟩
  else if !fs.isDir directory_path then ⟨true, [], []⟩
  else
    let files := if recursive then fs.rglob directory_path
                 else fs.glob directory_path
    let supported_files := files.filter
      (fun f => fs.isFile f && is_supported_format f)
    if supported_files.isEmpty then ⟨true, [], []⟩
    else
      ⟨false, supported_files,
        supported_files.map (fun f => (f, inspect_file_metadata (meta f)))⟩

/-! ## Helper lemmas about the tag scan -/

/-- A scan over tags that are all absent or unparsable yields nothing. -/
theorem scanTags_eq_none (parse : String → Option PyDateTime) (tags : Tags)
    (l : List String) (hall : ∀ t ∈ l, (lookupTag tags t).bind parse = none) :
    scanTags parse l tags = none := by
  induction l with
  | nil => rfl
  | cons t rest ih =>
    have ht := hall t (by simp)
    have hrest : ∀ u ∈ rest, (lookupTag tags u).bind parse = none := by
      intro u hu; exact hall u (by simp [hu])
    cases hlook : lookupTag tags t with
    | none => simpa [scanTags, hlook] using ih hrest
    | some v =>
      rw [hlook] at ht
      simp only [Option.bind] at ht
      simpa [scanTags, hlook, ht] using ih hrest

/-- The scan returns the parse of the first listed tag that is present
and parses, regardless of what follows. -/
theorem scanTags_append (parse : String → Option PyDateTime) (tags : Tags)
    (pre post : List String) (t : String) (d : PyDateTime)
    (hpre : ∀ u ∈ pre, (lookupTag tags u).bind parse = none)
    (ht : (lookupTag tags t).bind parse = some d) :
    scanTags parse (pre ++ t :: post) tags = some d := by
  induction pre with
  | nil =>
    cases hlook : lookupTag tags t with
    | none => rw [hlook] at ht; simp at ht
    | some v =>
      rw [hlook] at ht
      simp only [Option.bind] at ht
      simp [scanTags, hlook, ht]
  | cons u pre' ih =>
    have hu := hpre u (by simp)
    have hpre' : ∀ w ∈ pre', (lookupTag tags w).bind parse = none := by
      intro w hw; exact hpre w (by simp [hw])
    cases hlook : lookupTag tags u with
    | none => simpa [scanTags, hlook] using ih hpre'
    | some v =>
      rw [hlook] at hu
      simp only [Option.bind] at hu
      simpa [scanTags, hlook, hu] using ih hpre'

/-- C1: for an image file (non-video extension), `get_exif_date` returns
the parse of the earliest tag of `EXIF_DATE_TAGS` that is present and
parses under `%Y:%m:%d %H:%M:%S`; every earlier tag may be absent or
unparsable.  In particular, with both `EXIF DateTimeOriginal` and
`EXIF DateTime` present and parseable, the `EXIF DateTimeOriginal` value
wins. -/
theorem get_exif_date_image_priority (path : String) (tags : Tags)
    (pre post : List String) (t : String) (d : PyDateTime)
    (hsplit : EXIF_DATE_TAGS = pre ++ t :: post)
    (himg : VIDEO_EXTS.contains (toLowerStr (pathSuffix path)) = false)
    (hpre : ∀ u ∈ pre, (lookupTag tags u).bind strptimeColon = none)
    (ht : (lookupTag tags t).bind strptimeColon = some d) :
    get_exif_date path (some tags) = some d := by
  simp only [get_exif_date, himg, Bool.false_eq_true, if_false]
  rw [hsplit]
  exact scanTags_append strptimeColon tags pre post t d hpre ht

/-- Witness for C1: `EXIF DateTimeOriginal` beats `EXIF DateTime` even
when listed after it in the tag dictionary. -/
theorem get_exif_date_image_priority_witness :
    get_exif_date "test.jpg"
      (some [("EXIF DateTime", "2023:05:15 14:30:25"),
             ("EXIF DateTimeOriginal", "2023:06:20 10:15:30")]) =
      some ⟨2023, 6, 20, 10, 15, 30⟩ :=
  get_exif_date_image_priority "test.jpg"
    [("EXIF DateTime", "2023:05:15 14:30:25"),
     ("EXIF DateTimeOriginal", "2023:06:20 10:15:30")]
    [] ["EXIF DateTime", "Image DateTime", "EXIF SubSecTimeOriginal",
        "EXIF SubSecTime"]
    "EXIF DateTimeOriginal" ⟨2023, 6, 20, 10, 15, 30⟩
    (by decide) (by decide) (by simp) (by decide)

/-- C4: the reader is total and falls back to `none`: a raising decode
yields `none`; when every video tag and every image tag is absent or
unparsable the result is `none`; and a present-but-unparsable tag is
skipped, the scan continuing with the remaining tags. -/
theorem get_exif_date_error_handling (path : String) (tags : Tags)
    (hv : ∀ t ∈ VIDEO_DATE_TAGS, (lookupTag tags t).bind tryVideoFormats = none)
    (hi : ∀ t ∈ EXIF_DATE_TAGS, (lookupTag tags t).bind strptimeColon = none) :
    get_exif_date path none = none ∧
    get_exif_date path (some tags) = none ∧
    (∀ (parse : String → Option PyDateTime) (l : List String) (t v : String),
      lookupTag tags t = some v → parse v = none →
      scanTags parse (t :: l) tags = scanTags parse l tags) := by
  refine ⟨rfl, ?_, ?_⟩
  · have himage := scanTags_eq_none strptimeColon tags EXIF_DATE_TAGS hi
    have hvideo := scanTags_eq_none tryVideoFormats tags VIDEO_DATE_TAGS hv
    cases hext : VIDEO_EXTS.contains (toLowerStr (pathSuffix path)) <;>
      simp [get_exif_date, hext, himage, hvideo]
  · intro parse l t v hlook hparse
    simp [scanTags, hlook, hparse]

/-- Witness for C4: the spec's `invalid-date-format` example returns
`none` without failing. -/
theorem get_exif_date_error_handling_witness :
    get_exif_date "test.jpg"
      (some [("EXIF DateTimeOriginal", "invalid-date-format")]) = none :=
  (get_exif_date_error_handling "test.jpg"
    [("EXIF DateTimeOriginal", "invalid-date-format")]
    (by decide) (by decide)).2.1

/-- C2: `update_creation_date` invokes exactly
`['SetFile', '-d', strftime('%m/%d/%Y %H:%M:%S'), file_path]` and
returns `True` iff that invocation completes with exit status `0`;
a non-zero exit or a raising invocation gives `False`. -/
theorem update_creation_date_spec (run : List String → Except String Int)
    (path : String) (d : PyDateTime) :
    (update_creation_date run path d).2 =
      [["SetFile", "-d", strftimeSetFile d, path]] ∧
    ((update_creation_date run path d).1 = true ↔
      run ["SetFile", "-d", strftimeSetFile d, path] = Except.ok 0) := by
  unfold update_creation_date
  cases hrun : run ["SetFile", "-d", strftimeSetFile d, path] with
  | ok rc => simp [hrun, beq_iff_eq]
  | error e => simp [hrun]

/-- Witness for C2: exit 0 gives `True` with the exact argument list
`['SetFile', '-d', '05/15/2023 14:30:25', <path>]`; exit 1 gives
`False`. -/
theorem update_creation_date_spec_witness :
    (update_creation_date (fun _ => Except.ok 0) "/photos/test.jpg"
      ⟨2023, 5, 15, 14, 30, 25⟩).1 = true ∧
    (update_creation_date (fun _ => Except.ok 0) "/photos/test.jpg"
      ⟨2023, 5, 15, 14, 30, 25⟩).2 =
      [["SetFile", "-d", "05/15/2023 14:30:25", "/photos/test.jpg"]] ∧
    (update_creation_date (fun _ => Except.ok 1) "/photos/test.jpg"
      ⟨2023, 5, 15, 14, 30, 25⟩).1 = false :=
  ⟨(update_creation_date_spec (fun _ => Except.ok 0) "/photos/test.jpg"
      ⟨2023, 5, 15, 14, 30, 25⟩).2.mpr rfl,
   ((update_creation_date_spec (fun _ => Except.ok 0) "/photos/test.jpg"
      ⟨2023, 5, 15, 14, 30, 25⟩).1).trans (by decide),
   by decide⟩

/-- C6: the format filter accepts a path exactly when the lower-cased
extension is one of the fourteen supported ones, and it depends on the
path only through that lower-cased extension (any casing is accepted). -/
theorem is_supported_format_spec (p : String) :
    (is_supported_format p = true ↔
      toLowerStr (pathSuffix p) ∈
        ([".jpg", ".jpeg", ".tiff", ".tif", ".png", ".heic", ".heif",
          ".cr2", ".nef", ".arw", ".mp4", ".mov", ".avi", ".mkv"] :
          List String)) ∧
    ∀ q : String, toLowerStr (pathSuffix q) = toLowerStr (pathSuffix p) →
      is_supported_format q = is_supported_format p := by
  constructor
  · simp [is_supported_format, SUPPORTED_FORMATS, List.contains, List.elem_iff]
  · intro q h
    simp only [is_supported_format, h]

/-- Witness for C6: a mixed-case supported extension is accepted. -/
theorem is_supported_format_spec_witness :
    is_supported_format "photos/IMG_0001.JpG" = true :=
  (is_supported_format_spec "photos/IMG_0001.JpG").1.mpr (by decide)

/-- C8: a missing or non-directory path makes `process_directory` return
early with no files enumerated, no counter changes and no invocation. -/
theorem process_directory_invalid_path (fs : FS)
    (meta : String → Option Tags) (run : List String → Except String Int)
    (dir : String) (dry_run : Bool)
    (h : fs.pathExists dir = false ∨ fs.isDir dir = false) :
    process_directory fs meta run dir dry_run = ⟨true, [], 0, 0, 0, []⟩ := by
  rcases h with h | h
  · simp [process_directory, h]
  · cases hpe : fs.pathExists dir <;> simp [process_directory, hpe, h]

/-- A filesystem on which every query fails. -/
def fsMissing : FS :=
  ⟨fun _ => false, fun _ => false, fun _ => false, fun _ => [], fun _ => []⟩

/-- Witness for C8: the spec's `/nonexistent/directory` run. -/
theorem process_directory_invalid_path_witness :
    process_directory fsMissing (fun _ => none) (fun _ => Except.ok 0)
      "/nonexistent/directory" false = ⟨true, [], 0, 0, 0, []⟩ :=
  process_directory_invalid_path fsMissing (fun _ => none)
    (fun _ => Except.ok 0) "/nonexistent/directory" false (Or.inl rfl)

/-! ## Helper lemmas about the processing loop -/

/-- With `dry_run = True` the loop never touches the invocation log. -/
theorem foldl_processFile_invoked_dry (meta : String → Option Tags)
    (run : List String → Except String Int) (files : List String) :
    ∀ st : ProcStats,
      (files.foldl (processFile true meta run) st).invoked = st.invoked := by
  induction files with
  | nil => intro st; rfl
  | cons p rest ih =>
    intro st
    cases hge : get_exif_date p (meta p) with
    | none => simpa [processFile, hge] using ih _
    | some d => simpa [processFile, hge] using ih _

/-- A file increments `updated` exactly when its date is found and the
update succeeds (or would, in a dry run). -/
theorem foldl_processFile_updated (dry_run : Bool)
    (meta : String → Option Tags) (run : List String → Except String Int)
    (files : List String) : ∀ st : ProcStats,
    (files.foldl (processFile dry_run meta run) st).updated =
      st.updated + (files.countP fun p =>
        match get_exif_date p (meta p) with
        | none => false
        | some d => dry_run || (update_creation_date run p d).1) := by
  induction files with
  | nil => intro st; simp
  | cons p rest ih =>
    intro st
    rw [List.foldl_cons, ih, List.countP_cons]
    cases hge : get_exif_date p (meta p) with
    | none => simp [processFile, hge]
    | some d =>
      cases hdry : dry_run with
      | true => simp [processFile, hge, hdry]; omega
      | false =>
        cases hupd : (update_creation_date run p d).1 <;>
          simp [processFile, hge, hdry, hupd] <;> omega

/-- A file increments `skipped` exactly when the reader finds no date. -/
theorem foldl_processFile_skipped (dry_run : Bool)
    (meta : String → Option Tags) (run : List String → Except String Int)
    (files : List String) : ∀ st : ProcStats,
    (files.foldl (processFile dry_run meta run) st).skipped =
      st.skipped + (files.countP fun p => (get_exif_date p (meta p)).isNone) := by
  induction files with
  | nil => intro st; simp
  | cons p rest ih =>
    intro st
    rw [List.foldl_cons, ih, List.countP_cons]
    cases hge : get_exif_date p (meta p) with
    | none => simp [processFile, hge]; omega
    | some d =>
      cases hdry : dry_run with
      | true => simp [processFile, hge, hdry]
      | false =>
        cases hupd : (update_creation_date run p d).1 <;>
          simp [processFile, hge, hdry, hupd]

/-- A file increments `errored` exactly when its date is found but the
(non-dry-run) update fails. -/
theorem foldl_processFile_errored (dry_run : Bool)
    (meta : String → Option Tags) (run : List String → Except String Int)
    (files : List String) : ∀ st : ProcStats,
    (files.foldl (processFile dry_run meta run) st).errored =
      st.errored + (files.countP fun p =>
        match get_exif_date p (meta p) with
        | none => false
        | some d => !dry_run && !(update_creation_date run p d).1) := by
  induction files with
  | nil => intro st; simp
  | cons p rest ih =>
    intro st
    rw [List.foldl_cons, ih, List.countP_cons]
    cases hge : get_exif_date p (meta p) with
    | none => simp [processFile, hge]
    | some d =>
      cases hdry : dry_run with
      | true => simp [processFile, hge, hdry]
      | false =>
        cases hupd : (update_creation_date run p d).1 <;>
          simp [processFile, hge, hdry, hupd] <;> omega

/-- Counting with three predicates of which exactly one holds per element
accounts for every element. -/
theorem countP_three_partition {α : Type} {p q r : α → Bool}
    (h : ∀ a, ((if p a then 1 else 0) + (if q a then 1 else 0) +
      (if r a then 1 else 0) : Nat) = 1) (l : List α) :
    l.countP p + l.countP q + l.countP r = l.length := by
  induction l with
  | nil => simp
  | cons a l ih =>
    have ha := h a
    simp only [List.countP_cons, List.length_cons]
    omega

/-- The three per-file classes are mutually exclusive and exhaustive. -/
theorem countP_process_partition (dry_run : Bool)
    (meta : String → Option Tags) (run : List String → Except String Int)
    (files : List String) :
    (files.countP fun p =>
        match get_exif_date p (meta p) with
        | none => false
        | some d => dry_run || (update_creation_date run p d).1) +
    (files.countP fun p => (get_exif_date p (meta p)).isNone) +
    (files.countP fun p =>
        match get_exif_date p (meta p) with
        | none => false
        | some d => !dry_run && !(update_creation_date run p d).1) =
    files.length := by
  apply countP_three_partition
  intro p
  cases hge : get_exif_date p (meta p) with
  | none => simp [hge]
  | some d =>
    cases hdry : dry_run with
    | true => simp [hge, hdry]
    | false =>
      cases hupd : (update_creation_date run p d).1 <;> simp [hge, hdry, hupd]

/-- C5: with `dry_run = True`, `process_directory` never invokes the
date-update command, whatever the directory contains and whatever dates
the reader finds. -/
theorem process_directory_dry_run_no_invoke (fs : FS)
    (meta : String → Option Tags) (run : List String → Except String Int)
    (dir : String) :
    (process_directory fs meta run dir true).invoked = [] := by
  simp only [process_directory]
  split
  · rfl
  · split
    · rfl
    · split
      · rfl
      · exact foldl_processFile_invoked_dry meta run _ _

/-- C9: every enumerated supported file is tallied exactly once:
`updated + skipped + errored` equals the number of supported files, a
file counts as skipped exactly when the reader found no date, and as
errored exactly when a date was found but the (non-dry-run) update
invocation failed. -/
theorem process_directory_tally_invariant (fs : FS)
    (meta : String → Option Tags) (run : List String → Except String Int)
    (dir : String) (dry_run : Bool) :
    (process_directory fs meta run dir dry_run).updated +
      (process_directory fs meta run dir dry_run).skipped +
      (process_directory fs meta run dir dry_run).errored =
      (process_directory fs meta run dir dry_run).files.length ∧
    (process_directory fs meta run dir dry_run).skipped =
      (process_directory fs meta run dir dry_run).files.countP
        (fun p => (get_exif_date p (meta p)).isNone) ∧
    (process_directory fs meta run dir dry_run).errored =
      (process_directory fs meta run dir dry_run).files.countP
        (fun p =>
          match get_exif_date p (meta p) with
          | none => false
          | some d => !dry_run && !(update_creation_date run p d).1) := by
  simp only [process_directory]
  split
  · simp
  · split
    · simp
    · split
      · simp
      · refine ⟨?_, ?_, ?_⟩
        · dsimp only
          rw [foldl_processFile_updated, foldl_processFile_skipped,
            foldl_processFile_errored]
          simpa using countP_process_partition dry_run meta run _
        · dsimp only
          rw [foldl_processFile_skipped]
          simp
        · dsimp only
          rw [foldl_processFile_errored]
          simp

/-- C10: in a dry run a file with a found date is tallied on the same
`updated` counter as a real update, so `updated` counts exactly the files
whose reader result is a date, and `errored` is always zero. -/
theorem process_directory_dry_run_counts (fs : FS)
    (meta : String → Option Tags) (run : List String → Except String Int)
    (dir : String) :
    (process_directory fs meta run dir true).errored = 0 ∧
    (process_directory fs meta run dir true).updated =
      (process_directory fs meta run dir true).files.countP
        (fun p => (get_exif_date p (meta p)).isSome) := by
  simp only [process_directory]
  split
  · simp
  · split
    · simp
    · split
      · simp
      · constructor
        · dsimp only
          rw [foldl_processFile_errored]
          simp only [Nat.zero_add]
          rw [List.countP_eq_zero]
          intro p _
          cases hge : get_exif_date p (meta p) <;> simp [hge]
        · dsimp only
          rw [foldl_processFile_updated]
          simp only [Nat.zero_add]
          apply List.countP_congr
          intro p _
          cases hge : get_exif_date p (meta p) <;> simp [hge]

/-- C3 (amended): `inspect_directory` takes a recursive flag — with the
flag false it enumerates only the directory's immediate children
(`glob('*')`), with it true the full tree (`rglob('*')`) — while
`process_directory` has no recursive flag and always enumerates
recursively, its boolean parameter being `dry_run`. -/
theorem walkers_enumeration (fs : FS) (meta : String → Option Tags)
    (run : List String → Except String Int) (dir : String) (dry_run : Bool)
    (hex : fs.pathExists dir = true) (hdir : fs.isDir dir = true) :
    (inspect_directory fs meta dir false).files =
      (fs.glob dir).filter (fun f => fs.isFile f && is_supported_format f) ∧
    (inspect_directory fs meta dir true).files =
      (fs.rglob dir).filter (fun f => fs.isFile f && is_supported_format f) ∧
    (process_directory fs meta run dir dry_run).files =
      (fs.rglob dir).filter (fun p => fs.isFile p && is_supported_format p) := by
  refine ⟨?_, ?_, ?_⟩
  · simp only [inspect_directory, hex, hdir, Bool.not_true,
      Bool.false_eq_true, if_false, if_false]
    split
    · rename_i hemp
      rw [List.isEmpty_iff] at hemp
      simp [hemp]
    · rfl
  · simp only [inspect_directory, hex, hdir, Bool.not_true,
      Bool.false_eq_true, if_false, if_false, if_true]
    split
    · rename_i hemp
      rw [List.isEmpty_iff] at hemp
      simp [hemp]
    · rfl
  · simp only [process_directory, hex, hdir, Bool.not_true,
      Bool.false_eq_true, if_false, if_false]
    split
    · rename_i hemp
      rw [List.isEmpty_iff] at hemp
      simp [hemp]
    · rfl

/-- A small filesystem whose only supported file sits in a subdirectory
of `d`, so it is not among `d`'s immediate children. -/
def fsNested : FS where
  pathExists := fun p => p == "d"
  isDir := fun p => p == "d"
  isFile := fun p => p == "d/sub/deep.jpg"
  glob := fun _ => []
  rglob := fun p => if p == "d" then ["d/sub/deep.jpg"] else []

/-- Counterexample to C3 as stated: `process_directory` enumerates (and
processes) a file that is not an immediate child of the directory even
though the boolean flag it is given is `false` — its boolean is
`dry_run`, not a recursion switch, and enumeration is always recursive. -/
theorem process_directory_ignores_recursive_flag :
    (process_directory fsNested (fun _ => none) (fun _ => Except.error "")
      "d" false).files = ["d/sub/deep.jpg"] ∧
    fsNested.glob "d" = [] := by
  constructor
  · rfl
  · rfl

/-- Witness for the amended C3 on `fsNested`: the non-recursive
inspector walk sees nothing while the updater's walk still reaches the
nested file. -/
theorem walkers_enumeration_witness :
    (inspect_directory fsNested (fun _ => none) "d" false).files = [] ∧
    (process_directory fsNested (fun _ => none) (fun _ => Except.error "")
      "d" false).files = ["d/sub/deep.jpg"] :=
  ⟨((walkers_enumeration fsNested (fun _ => none) (fun _ => Except.error "")
      "d" false rfl rfl).1).trans (by decide),
   ((walkers_enumeration fsNested (fun _ => none) (fun _ => Except.error "")
      "d" false rfl rfl).2.2).trans (by decide)⟩

/-! ## Helper lemmas for the inspector -/

theorem charListLt_trans : ∀ a b c : List Char,
    charListLt a b = true → charListLt b c = true → charListLt a c = true := by
  intro a
  induction a with
  | nil =>
    intro b c h1 h2
    cases b with
    | nil => simp [charListLt] at h1
    | cons y ys =>
      cases c with
      | nil => simp [charListLt] at h2
      | cons z zs => simp [charListLt]
  | cons x xs ih =>
    intro b c h1 h2
    cases b with
    | nil => simp [charListLt] at h1
    | cons y ys =>
      cases c with
      | nil => simp [charListLt] at h2
      | cons z zs =>
        simp only [charListLt] at h1 h2 ⊢
        rcases Nat.lt_trichotomy x.toNat y.toNat with hxy | hxy | hxy
        · rcases Nat.lt_trichotomy y.toNat z.toNat with hyz | hyz | hyz
          · simp [show x.toNat < z.toNat by omega]
          · simp [show x.toNat < z.toNat by omega]
          · simp [show ¬y.toNat < z.toNat by omega, hyz] at h2
        · rcases Nat.lt_trichotomy y.toNat z.toNat with hyz | hyz | hyz
          · simp [show x.toNat < z.toNat by omega]
          · have hx : ¬x.toNat < y.toNat := by omega
            have hy : ¬y.toNat < x.toNat := by omega
            have hy' : ¬y.toNat < z.toNat := by omega
            have hz : ¬z.toNat < y.toNat := by omega
            simp only [hx, hy, if_false] at h1
            simp only [hy', hz, if_false] at h2
            simp [show ¬x.toNat < z.toNat by omega,
              show ¬z.toNat < x.toNat by omega, ih ys zs h1 h2]
          · simp [show ¬y.toNat < z.toNat by omega, hyz] at h2
        · simp [show ¬x.toNat < y.toNat by omega, hxy] at h1

theorem charListLt_connex : ∀ a b : List Char,
    charListLt a b = false → charListLt b a = false → a = b := by
  intro a
  induction a with
  | nil =>
    intro b h1 _
    cases b with
    | nil => rfl
    | cons y ys => simp [charListLt] at h1
  | cons x xs ih =>
    intro b h1 h2
    cases b with
    | nil => simp [charListLt] at h2
    | cons y ys =>
      simp only [charListLt] at h1 h2
      rcases Nat.lt_trichotomy x.toNat y.toNat with h | h | h
      · simp [h] at h1
      · have hx : ¬x.toNat < y.toNat := by omega
        have hy : ¬y.toNat < x.toNat := by omega
        simp only [hx, hy, if_false] at h1 h2
        have hxy : x = y := Char.ext (UInt32.ext h)
        rw [hxy, ih ys h1 h2]
      · simp [h] at h2

theorem strLtb_connex (a b : String) (h1 : strLtb a b = false)
    (h2 : strLtb b a = false) : a = b := by
  have := charListLt_connex a.toList b.toList h1 h2
  exact String.ext this

theorem pairLe_trans (a b c : String × String) :
    pairLe a b = true → pairLe b c = true → pairLe a c = true := by
  simp only [pairLe, Bool.or_eq_true, Bool.and_eq_true, beq_iff_eq]
  rintro (h1 | ⟨h1, h1'⟩) (h2 | ⟨h2, h2'⟩)
  · exact Or.inl (charListLt_trans _ _ _ h1 h2)
  · exact Or.inl (h2 ▸ h1)
  · exact Or.inl (h1 ▸ h2)
  · refine Or.inr ⟨h1.trans h2, ?_⟩
    rcases h1' with h1' | h1' <;> rcases h2' with h2' | h2'
    · exact Or.inl (charListLt_trans _ _ _ h1' h2')
    · exact Or.inl (h2' ▸ h1')
    · exact Or.inl (h1' ▸ h2')
    · exact Or.inr (h1'.trans h2')

theorem pairLe_total (a b : String × String) :
    pairLe a b = true ∨ pairLe b a = true := by
  simp only [pairLe, Bool.or_eq_true, Bool.and_eq_true, beq_iff_eq]
  cases hab : strLtb a.1 b.1 with
  | true => exact Or.inl (Or.inl rfl)
  | false =>
    cases hba : strLtb b.1 a.1 with
    | true => exact Or.inr (Or.inl rfl)
    | false =>
      have h1 : a.1 = b.1 := strLtb_connex _ _ hab hba
      cases hab2 : strLtb a.2 b.2 with
      | true => exact Or.inl (Or.inr ⟨h1, Or.inl rfl⟩)
      | false =>
        cases hba2 : strLtb b.2 a.2 with
        | true => exact Or.inr (Or.inr ⟨h1.symm, Or.inl rfl⟩)
        | false =>
          exact Or.inl (Or.inr ⟨h1, Or.inr (strLtb_connex _ _ hab2 hba2)⟩)

/-- `sorted` output is ordered under the pair comparison. -/
theorem sortPairs_sorted (l : List (String × String)) :
    (sortPairs l).Pairwise (fun a b => pairLe a b = true) :=
  @List.sorted_insertionSort (String × String)
    (fun a b => pairLe a b = true) (fun _ _ => instDecidableEqBool _ _)
    ⟨pairLe_total⟩ ⟨pairLe_trans⟩ l

/-- `sorted` output is a permutation of its input. -/
theorem sortPairs_perm (l : List (String × String)) :
    (sortPairs l).Perm l :=
  List.perm_insertionSort (fun a b => pairLe a b = true) l

/-- The categorization loop splits the tag list into the four
first-match categories, in input order, appended after the accumulator. -/
theorem foldl_categorizeStep (tags : Tags) :
    ∀ acc : Tags × Tags × Tags × Tags,
    tags.foldl categorizeStep acc =
      (acc.1 ++ tags.filter (fun tv => anyWordIn DATE_WORDS tv.1),
       acc.2.1 ++ tags.filter (fun tv =>
         !anyWordIn DATE_WORDS tv.1 && anyWordIn CAMERA_WORDS tv.1),
       acc.2.2.1 ++ tags.filter (fun tv =>
         !anyWordIn DATE_WORDS tv.1 && !anyWordIn CAMERA_WORDS tv.1 &&
         anyWordIn VIDEO_WORDS tv.1),
       acc.2.2.2 ++ tags.filter (fun tv =>
         !anyWordIn DATE_WORDS tv.1 && !anyWordIn CAMERA_WORDS tv.1 &&
         !anyWordIn VIDEO_WORDS tv.1)) := by
  induction tags with
  | nil => intro acc; simp
  | cons tv rest ih =>
    intro acc
    rw [List.foldl_cons, ih]
    cases hd : anyWordIn DATE_WORDS tv.1 with
    | true => simp [categorizeStep, hd, List.filter_cons]
    | false =>
      cases hc : anyWordIn CAMERA_WORDS tv.1 with
      | true => simp [categorizeStep, hd, hc, List.filter_cons]
      | false =>
        cases hv : anyWordIn VIDEO_WORDS tv.1 with
        | true => simp [categorizeStep, hd, hc, hv, List.filter_cons]
        | false => simp [categorizeStep, hd, hc, hv, List.filter_cons]

/-- Counting with four predicates of which exactly one holds per element
accounts for every element. -/
theorem countP_four_partition {α : Type} {p q r s : α → Bool}
    (h : ∀ a, ((if p a then 1 else 0) + (if q a then 1 else 0) +
      (if r a then 1 else 0) + (if s a then 1 else 0) : Nat) = 1)
    (l : List α) :
    l.countP p + l.countP q + l.countP r + l.countP s = l.length := by
  induction l with
  | nil => simp
  | cons a l ih =>
    have ha := h a
    simp only [List.countP_cons, List.length_cons]
    omega

/-- C7: the inspector's categorization.  A raising decode or an empty
tag dictionary yields `None`; otherwise each tag lands in the first
matching category (date words, else camera words, else video words, else
other), the four lists are the sorted first-match filters, `total_tags`
is the tag count, the output of `sorted` is ordered and a permutation of
its input, and the four category sizes add up to the total. -/
theorem inspect_file_metadata_spec (tags : Tags) (hne : tags ≠ []) :
    inspect_file_metadata none = none ∧
    inspect_file_metadata (some []) = none ∧
    inspect_file_metadata (some tags) = some
      { date_tags := sortPairs (tags.filter fun tv => anyWordIn DATE_WORDS tv.1)
        camera_tags := sortPairs (tags.filter fun tv =>
          !anyWordIn DATE_WORDS tv.1 && anyWordIn CAMERA_WORDS tv.1)
        video_tags := sortPairs (tags.filter fun tv =>
          !anyWordIn DATE_WORDS tv.1 && !anyWordIn CAMERA_WORDS tv.1 &&
          anyWordIn VIDEO_WORDS tv.1)
        other_tags := sortPairs (tags.filter fun tv =>
          !anyWordIn DATE_WORDS tv.1 && !anyWordIn CAMERA_WORDS tv.1 &&
          !anyWordIn VIDEO_WORDS tv.1)
        total_tags := tags.length } ∧
    (∀ l : Tags, (sortPairs l).Pairwise (fun a b => pairLe a b = true) ∧
      (sortPairs l).Perm l) ∧
    (∀ r : MetadataSummary, inspect_file_metadata (some tags) = some r →
      r.date_tags.length + r.camera_tags.length + r.video_tags.length +
        r.other_tags.length = r.total_tags) := by
  have heq : inspect_file_metadata (some tags) = some
      { date_tags := sortPairs (tags.filter fun tv => anyWordIn DATE_WORDS tv.1)
        camera_tags := sortPairs (tags.filter fun tv =>
          !anyWordIn DATE_WORDS tv.1 && anyWordIn CAMERA_WORDS tv.1)
        video_tags := sortPairs (tags.filter fun tv =>
          !anyWordIn DATE_WORDS tv.1 && !anyWordIn CAMERA_WORDS tv.1 &&
          anyWordIn VIDEO_WORDS tv.1)
        other_tags := sortPairs (tags.filter fun tv =>
          !anyWordIn DATE_WORDS tv.1 && !anyWordIn CAMERA_WORDS tv.1 &&
          !anyWordIn VIDEO_WORDS tv.1)
        total_tags := tags.length } := by
    have hemp : tags.isEmpty = false := by
      cases tags with
      | nil => exact absurd rfl hne
      | cons a l => rfl
    simp only [inspect_file_metadata, hemp, Bool.false_eq_true, if_false]
    rw [foldl_categorizeStep]
    simp
  refine ⟨rfl, rfl, heq, fun l => ⟨sortPairs_sorted l, sortPairs_perm l⟩, ?_⟩
  intro r hr
  rw [heq] at hr
  cases hr
  show (sortPairs _).length + (sortPairs _).length + (sortPairs _).length +
    (sortPairs _).length = tags.length
  rw [(sortPairs_perm _).length_eq, (sortPairs_perm _).length_eq,
    (sortPairs_perm _).length_eq, (sortPairs_perm _).length_eq]
  simp only [← List.countP_eq_length_filter]
  apply countP_four_partition
  intro tv
  cases hd : anyWordIn DATE_WORDS tv.1 <;>
    cases hc : anyWordIn CAMERA_WORDS tv.1 <;>
    cases hv : anyWordIn VIDEO_WORDS tv.1 <;> simp [hd, hc, hv]

/-- Witness for C7: a concrete tag dictionary with one tag of each
category; tags are categorized by first match (`QuickTime Bitrate`
contains `time`, so it is a date tag, not a video tag) and listed in
sorted order. -/
theorem inspect_file_metadata_spec_witness :
    inspect_file_metadata
      (some [("Image Model", "Canon EOS R5"),
             ("EXIF DateTimeOriginal", "2023:05:15 14:30:25"),
             ("QuickTime Bitrate", "5000"),
             ("Thumbnail Compression", "JPEG"),
             ("Audio Codec", "aac")]) = some
      { date_tags := [("EXIF DateTimeOriginal", "2023:05:15 14:30:25"),
                      ("QuickTime Bitrate", "5000")]
        camera_tags := [("Image Model", "Canon EOS R5")]
        video_tags := [("Audio Codec", "aac")]
        other_tags := [("Thumbnail Compression", "JPEG")]
        total_tags := 5 } :=
  ((inspect_file_metadata_spec
      [("Image Model", "Canon EOS R5"),
       ("EXIF DateTimeOriginal", "2023:05:15 14:30:25"),
       ("QuickTime Bitrate", "5000"),
       ("Thumbnail Compression", "JPEG"),
       ("Audio Codec", "aac")]
      (by decide)).2.2.1).trans (by decide)

end PhotoDateUpdater
